import Mathlib

/-!
Verification development for the Deka translation-aggregation core.

The definitions below are shallow embeddings of the Python functions of the
repository (`parse_provider_name`, `BaseProvider.__init__`,
`validate_provider_model`, `normalize_language`, `get_provider_code`,
`compare` / `compare_async`, `translate_async`, and the DeepL adapter's
endpoint selection), translated from the source files.  Strings are Lean
`String`s (sequences of Unicode code points, as in Python), machine-level
details (HTTP, event loop) are modelled by explicit state passing, and
Python exceptions become `Except` results.
-/

instance {ε α : Type} [DecidableEq ε] [DecidableEq α] :
    DecidableEq (Except ε α) := fun a b =>
  match a, b with
  | Except.ok x, Except.ok y =>
    if h : x = y then isTrue (by rw [h])
    else isFalse (fun c => by injection c; contradiction)
  | Except.ok _, Except.error _ => isFalse (fun c => Except.noConfusion c)
  | Except.error _, Except.ok _ => isFalse (fun c => Except.noConfusion c)
  | Except.error x, Except.error y =>
    if h : x = y then isTrue (by rw [h])
    else isFalse (fun c => by injection c; contradiction)

namespace Deka

/-! ## Provider selector parsing

Embedding of `parse_provider_name` (model-selection implementation):

```python
def parse_provider_name(provider_name: str) -> Tuple[str, Optional[str]]:
    if '/' in provider_name:
        provider, model = provider_name.split('/', 1)
        return provider, model
    else:
        return provider_name, None
```

`split('/', 1)` on a string containing `'/'` yields the part before the
first `'/'` and the whole remainder after it. -/

def parse_provider_name (provider_name : String) : String × Option String :=
  if provider_name.data.contains '/' then
    let before := provider_name.data.takeWhile (fun c => c ≠ '/')
    let after := (provider_name.data.dropWhile (fun c => c ≠ '/')).tail
    (String.mk before, some (String.mk after))
  else
    (provider_name, none)

/-! ## DeepL endpoint selection

Embedding of the DeepL adapter's free/pro detection:

```python
is_free = api_key.endswith(':fx')
base_url = "https://api-free.deepl.com" if is_free else "https://api.deepl.com"
```
-/

/-- Python `s.endswith(sfx)`. -/
def pyEndsWith (s sfx : String) : Bool :=
  decide (s.data.drop (s.data.length - sfx.data.length) = sfx.data)

def deeplBaseUrl (api_key : String) : String :=
  if pyEndsWith api_key ":fx" then "https://api-free.deepl.com"
  else "https://api.deepl.com"

/-! ## Provider registry and model validation

Embedding of the enhanced `BaseProvider` (model-selection implementation):

```python
class BaseProvider(ABC):
    default_model: Optional[str] = None
    supported_models: List[str] = []

    def __init__(self, model: Optional[str] = None):
        self.model = model or self.default_model
        # Validate model if provider supports models
        if self.supported_models and self.model:
            if self.model not in self.supported_models:
                raise ValueError(f"Model '{self.model}' not supported")
```

and of `validate_provider_model` over the hard-coded `PROVIDER_MODELS`
table from `utils.py`. -/

structure ProviderClass where
  name : String
  default_model : Option String
  supported_models : List String
  deriving Repr, DecidableEq

/-- The OpenAI model list hard-coded in `utils.py` (`PROVIDER_MODELS`). -/
def openaiModels : List String :=
  ["gpt-4", "gpt-4-turbo", "gpt-4o", "gpt-3.5-turbo", "gpt-4o-mini"]

def openaiProvider : ProviderClass :=
  { name := "openai", default_model := some "gpt-3.5-turbo",
    supported_models := openaiModels }

def geminiProvider : ProviderClass :=
  { name := "google-gemini", default_model := some "gemini-2.0-flash-001",
    supported_models :=
      ["gemini-2.0-flash-001", "gemini-1.5-pro", "gemini-1.5-flash"] }

/-- A classical REST provider (Google Translate, DeepL): no model notion,
`supported_models` is the empty default. -/
def googleProvider : ProviderClass :=
  { name := "google", default_model := none, supported_models := [] }

/-- Runtime state of a constructed adapter: the provider class and the
resolved model. -/
structure ProviderInstance where
  cls : ProviderClass
  model : Option String
  deriving Repr, DecidableEq

/-- Python `a or b` on an optional string: `None` and `""` are falsy. -/
def pyOr (a b : Option String) : Option String :=
  match a with
  | some v => if v = "" then b else some v
  | none => b

/-- `BaseProvider.__init__`: resolve the model (`model or self.default_model`)
and validate it against `supported_models` when both that list and the
resolved model are truthy, raising `ValueError` on an unknown model. -/
def mkProviderInstance (cls : ProviderClass) (model : Option String) :
    Except String ProviderInstance :=
  let m := pyOr model cls.default_model
  match m with
  | none => Except.ok { cls := cls, model := none }
  | some v =>
    if cls.supported_models ≠ [] ∧ v ≠ "" ∧ cls.supported_models.contains v = false then
      Except.error ("Model not supported")
    else
      Except.ok { cls := cls, model := some v }

/-- `validate_provider_model` from `utils.py`:

```python
def validate_provider_model(provider: str, model: str) -> bool:
    if model not in PROVIDER_MODELS[provider]:
        raise ValueError(f"Model '{model}' not supported")  # raises
```

modelled for the openai entry of `PROVIDER_MODELS`. -/
def validate_provider_model (models : List String) (model : String) :
    Except String Bool :=
  if models.contains model then Except.ok true
  else Except.error ("Model not supported")

/-! ## Data model and orchestrator

Embeddings of `TranslationResponse`, `ComparisonResult`, the sync `compare`
loop, and the async `compare_async` fan-out built on `asyncio.gather`. -/

/-- `TranslationResponse` value object (fields the claims need). -/
structure TranslationResponse where
  text : String
  provider : String
  model : Option String := none
  latency_ms : Nat := 0
  deriving Repr, DecidableEq

/-- An adapter invocation either yields a response or a failure reason
(the string carried by the raised `ProviderError`). -/
abbrev Outcome := Except String TranslationResponse

/-- Sync `compare` loop from `core.py`:

```python
results = []
errors = []
for provider in providers:
    try:
        result = translate_with_provider(provider)
        results.append(result)
    except Exception as e:
        errors.append(f"{provider}: {e}")
if not results:
    raise DekaError(f"All providers failed: {errors}")
```

The aggregate error carries the per-provider `"provider: reason"` list that
the raised message interpolates.  `behavior p` is provider `p`'s outcome. -/
def compare (providers : List String) (behavior : String → Outcome) :
    Except (List String) (List TranslationResponse) :=
  let results := providers.filterMap (fun p => (behavior p).toOption)
  let errors := providers.filterMap (fun p =>
    match behavior p with
    | Except.error e => some (p ++ ": " ++ e)
    | Except.ok _ => none)
  if results.isEmpty then Except.error errors
  else Except.ok results

/-! `asyncio.gather(*tasks)` completes tasks in an arbitrary order but stores
each task's outcome at the task's own index, so the returned list is in task
order.  We model the event loop's completion order as an explicit list of
indices: slot `k` of the buffer is written when index `k` completes. -/

/-- One gather buffer: slot `k` holds `none` until task `k` completes. -/
def gatherBuf (outcomes : List Outcome) (order : List Nat) :
    List (Option Outcome) :=
  order.foldl (fun buf k => buf.set k outcomes[k]?)
    (List.replicate outcomes.length none)

/-- `compare_async`: fan out, gather with the loop's completion order,
then keep the successes:

```python
results = await asyncio.gather(*tasks, return_exceptions=True)
successful_results = [r for r in results if isinstance(r, TranslationResponse)]
```
-/
def compare_async (providers : List String) (behavior : String → Outcome)
    (order : List Nat) : List TranslationResponse :=
  (gatherBuf (providers.map behavior) order).filterMap (fun slot =>
    match slot with
    | some (Except.ok r) => some r
    | _ => none)

/-! ## Adapter resource lifecycle

Embedding of the `aiohttp` session management of `BaseProvider` and of the
orchestrator's `try/finally` in `translate_async`:

```python
provider_instance = create_provider_instance(provider)
try:
    return await provider_instance.translate_async(request)
finally:
    await provider_instance.close()  # Always cleanup!
```

The session is the adapter's one reusable resource; `closes` counts how many
times an open session was actually closed (the observable "release"). -/

structure AdapterState where
  sessionOpen : Bool
  closes : Nat
  deriving Repr, DecidableEq

/-- A freshly constructed adapter: `self._session = None`. -/
def freshAdapter : AdapterState := { sessionOpen := false, closes := 0 }

/-- `_get_session`: create the session if absent or closed, else reuse. -/
def getSession (s : AdapterState) : AdapterState :=
  if s.sessionOpen then s else { s with sessionOpen := true }

/-- `close`: close the session only when one is open. -/
def closeSession (s : AdapterState) : AdapterState :=
  if s.sessionOpen then { sessionOpen := false, closes := s.closes + 1 }
  else s

/-- `__del__`: best-effort finalizer; same guard as `close`
(`if self._session and not self._session.closed`). -/
def delFinalizer (s : AdapterState) : AdapterState := closeSession s

/-- A provider's `translate_async`: acquires the session, then either
returns a response or raises — the outcome is a parameter so both paths are
covered. -/
def adapterTranslate (outcome : Outcome) (s : AdapterState) :
    Outcome × AdapterState :=
  (outcome, getSession s)

/-- The orchestrator's `translate_async` body: invoke the adapter, and
close it on the way out on both the return and the raise path
(`try ... finally`). -/
def translateOrch (outcome : Outcome) (s : AdapterState) :
    Outcome × AdapterState :=
  let (r, s1) := adapterTranslate outcome s
  (r, closeSession s1)

/-! ## Language reference tables

From `language_mapper.py`.  The source displays the table heads and elides
the remaining rows (`# ... 70+ languages`); the entries embedded here are
the displayed rows plus the rows that the source's own examples, alias
lists and provider mappings exercise. -/

def ISO_TO_NAME : List (String × String) :=
  [("en", "english"), ("fr", "french"), ("es", "spanish"), ("de", "german"),
   ("zh", "chinese"), ("pt", "portuguese"), ("ar", "arabic"),
   ("ja", "japanese"), ("ko", "korean"), ("mn", "mongolian"),
   ("tl", "filipino")]

/-- `NAME_TO_ISO = {name: code for code, name in ISO_TO_NAME.items()}` -/
def NAME_TO_ISO : List (String × String) :=
  ISO_TO_NAME.map (fun p => (p.2, p.1))

/-- `LANGUAGE_ALIASES` as displayed, plus the `french`/`français` row that
the source's tests and examples exercise
(`assert normalize_language('français') == 'french'`). -/
def LANGUAGE_ALIASES : List (String × List String) :=
  [("chinese", ["mandarin", "zh-cn", "zh-tw", "simplified chinese"]),
   ("spanish", ["castilian", "español"]),
   ("portuguese", ["português"]),
   ("arabic", ["عربي"]),
   ("japanese", ["日本語", "nihongo"]),
   ("french", ["français"])]

def PROVIDER_MAPPINGS : List (String × List (String × String)) :=
  [("deepl", [("portuguese", "pt-PT"), ("english", "en-US")]),
   ("google", [("chinese", "zh"), ("filipino", "tl")])]

/-- The fuzzy-match vocabulary: canonical names plus all aliases. -/
def allNames : List String :=
  NAME_TO_ISO.map (fun p => p.1) ++ (LANGUAGE_ALIASES.map (fun p => p.2)).flatten

/-- Python `str.lower()`, character by character.  `Char.toLower` lowers
the ASCII range and fixes every other code point, which agrees with Python
on all characters in the embedded tables and test inputs. -/
def pyLower (s : String) : String := String.mk (s.data.map Char.toLower)

/-- Python `str.strip()`: whitespace removed at both ends. -/
def pyStrip (s : String) : String :=
  String.mk
    (((s.data.dropWhile Char.isWhitespace).reverse.dropWhile
        Char.isWhitespace).reverse)

/-! ## difflib: `SequenceMatcher.ratio` and `get_close_matches`

`difflib.SequenceMatcher(None, a, b)` with no junk (our strings are far
below the 200-character autojunk threshold): `find_longest_match` scans `i`
over `a` carrying, for each `j`, the length of the common run ending at
`a[i]`/`b[j]`, and keeps the first strictly-longest block;
`get_matching_blocks` recurses left and right of it; `ratio` is
`2*M/(len(a)+len(b))` where `M` is the total matched size. -/

/-- One dynamic-programming row: `row[j] = prev[j-1] + 1` when
`b[j] = c`, else `0`.  `diag` is `prev[j-1]` for the current `j`. -/
def lmRow (c : Char) : List Char → Nat → List Nat → List Nat
  | [], _, _ => []
  | x :: bs, diag, prev =>
    let cur := if x = c then diag + 1 else 0
    let d := match prev with | [] => 0 | p :: _ => p
    let rest := match prev with | [] => ([] : List Nat) | _ :: r => r
    cur :: lmRow c bs d rest

/-- Fold a row into the current best block `(besti, bestj, bestsize)`:
take `(i+1-k, j+1-k, k)` whenever `k` strictly exceeds the best size. -/
def lmBest (i : Nat) : Nat → List Nat → Nat × Nat × Nat → Nat × Nat × Nat
  | _, [], best => best
  | j, k :: ks, best =>
    lmBest i (j + 1) ks
      (if best.2.2 < k then (i + 1 - k, j + 1 - k, k) else best)

def lmLoop (b : List Char) : List Char → Nat → List Nat → Nat × Nat × Nat →
    Nat × Nat × Nat
  | [], _, _, best => best
  | c :: as_, i, prev, best =>
    let row := lmRow c b 0 prev
    lmLoop b as_ (i + 1) row (lmBest i 0 row best)

/-- `find_longest_match` over the whole of `a` and `b` (junk-free). -/
def longestMatch (a b : List Char) : Nat × Nat × Nat :=
  lmLoop b a 0 (List.replicate b.length 0) (0, 0, 0)

/-- Total matched size `M` (sum of the sizes of all matching blocks),
computed by the recursive decomposition of `get_matching_blocks`.  The fuel
bounds the recursion depth; `a.length + b.length` always suffices because
every recursive call strictly shrinks the combined length. -/
def matchSum : Nat → List Char → List Char → Nat
  | 0, _, _ => 0
  | fuel + 1, a, b =>
    let m := longestMatch a b
    if m.2.2 = 0 then 0
    else
      matchSum fuel (a.take m.1) (b.take m.2.1) + m.2.2 +
        matchSum fuel (a.drop (m.1 + m.2.2)) (b.drop (m.2.1 + m.2.2))

/-- `ratio()` as the exact rational `num/den` with
`num = 2*M`, `den = len(a) + len(b)`. -/
def ratioPair (a b : List Char) : Nat × Nat :=
  (2 * matchSum (a.length + b.length + 1) a b, a.length + b.length)

/-- `ratio() >= cutoff` for the rational cutoff `cn/cd` (difflib returns
`1.0` for two empty sequences). -/
def ratioGe (a b : List Char) (cn cd : Nat) : Bool :=
  let r := ratioPair a b
  if r.2 = 0 then true else decide (cn * r.2 ≤ r.1 * cd)

/-- Strict descending comparison on `(score, string)` pairs, matching the
order `heapq.nlargest` applies to `(ratio, x)` tuples: by score first, by
string (code-point order) on score ties. -/
def scoreGt (p q : (Nat × Nat) × String) : Bool :=
  if p.1.1 * q.1.2 = q.1.1 * p.1.2 then decide (q.2 < p.2)
  else decide (q.1.1 * p.1.2 < p.1.1 * q.1.2)

def insertDesc (x : (Nat × Nat) × String) :
    List ((Nat × Nat) × String) → List ((Nat × Nat) × String)
  | [] => [x]
  | y :: ys => if scoreGt x y then x :: y :: ys else y :: insertDesc x ys

def sortDesc (l : List ((Nat × Nat) × String)) :
    List ((Nat × Nat) × String) :=
  l.foldr insertDesc []

/-- `difflib.get_close_matches(word, allNames, n, cutoff)`: keep the
candidates whose ratio against `word` reaches the cutoff (the
`real_quick_ratio`/`quick_ratio` prefilters are upper bounds of `ratio`, so
they do not change the set), order them largest-first, take `n`. -/
def getCloseMatches (word : String) (n : Nat) (cn cd : Nat) : List String :=
  let scored := allNames.filterMap (fun x =>
    if ratioGe x.data word.data cn cd then
      some (ratioPair x.data word.data, x)
    else none)
  ((sortDesc scored).take n).map (fun p => p.2)

/-! ## `normalize_language` and `get_provider_code` -/

/-- Step 3's alias scan: first table row whose lowered alias list contains
the input. -/
def aliasLookup (language : String) : Option String :=
  (LANGUAGE_ALIASES.find? (fun e =>
    (e.2.map pyLower).contains language)).map (fun e => e.1)

/-- Modelled from the spec: the body of `normalize_match` is elided in the
source; per the spec's step 5, a fuzzy match "auto-corrects" to the
canonical name, so a matched vocabulary item resolves to itself when it is
a canonical name and to its owning canonical name when it is an alias. -/
def normalize_match (m : String) : String :=
  if (NAME_TO_ISO.lookup m).isSome then m
  else
    match LANGUAGE_ALIASES.find? (fun e => e.2.contains m) with
    | some e => e.1
    | none => m

/-- `normalize_language` from `language_mapper.py`: lower/strip, then ISO
lookup, canonical-name lookup, alias lookup, fuzzy auto-correct at cutoff
0.8, and finally `LanguageNotSupportedError` carrying the suggestions
computed at cutoff 0.6 (`get_close_matches` default `n = 3`). -/
def normalize_language (input : String) : Except (List String) String :=
  let language := pyStrip (pyLower input)
  match ISO_TO_NAME.lookup language with
  | some name => Except.ok name
  | none =>
    match NAME_TO_ISO.lookup language with
    | some _ => Except.ok language
    | none =>
      match aliasLookup language with
      | some std => Except.ok std
      | none =>
        match getCloseMatches language 3 8 10 with
        | m :: _ => Except.ok (normalize_match m)
        | [] => Except.error (getCloseMatches language 3 6 10)

inductive DekaErr where
  | langNotSupported (suggestions : List String)
  | keyErr
  deriving Repr, DecidableEq

/-- `get_provider_code` from `language_mapper.py`: normalize, then the
per-provider override table, then the plain ISO code
(`NAME_TO_ISO[normalized]`, whose `KeyError` is `DekaErr.keyErr`). -/
def get_provider_code (language provider : String) : Except DekaErr String :=
  match normalize_language language with
  | Except.error s => Except.error (DekaErr.langNotSupported s)
  | Except.ok normalized =>
    let viaIso : Except DekaErr String :=
      match NAME_TO_ISO.lookup normalized with
      | some code => Except.ok code
      | none => Except.error DekaErr.keyErr
    match PROVIDER_MAPPINGS.lookup provider with
    | some pm =>
      match pm.lookup normalized with
      | some code => Except.ok code
      | none => viaIso
    | none => viaIso

/-! ## `TranslationRequest` and the pre-network failure path -/

structure TranslationRequest where
  text : String
  target_language : String
  source_language : Option String := none
  deriving Repr, DecidableEq

/-- Modelled from the spec: the `__post_init__` validation body of
`TranslationRequest` is elided in the source; the source's test asserts
that `TranslationRequest(text="", target_language="french")` raises
`ValueError`, and the spec's invariant reads "text must be non-empty". -/
def mkTranslationRequest (text target : String) (source : Option String) :
    Except String TranslationRequest :=
  if text = "" then Except.error "text must be non-empty"
  else Except.ok { text := text, target_language := target,
                   source_language := source }

inductive TranslateErr where
  | lang (suggestions : List String)
  | validation (msg : String)
  | provider (e : String)
  deriving Repr, DecidableEq

/-- The `translate` entry point up to the adapter call, in source order:
normalize the target, build the request, and only then dispatch to the
provider.  The boolean records whether the network (the provider call) was
ever reached. -/
def translate_pipeline (text target : String) (source : Option String)
    (behavior : TranslationRequest → Outcome) :
    Except TranslateErr TranslationResponse × Bool :=
  match normalize_language target with
  | Except.error s => (Except.error (TranslateErr.lang s), false)
  | Except.ok tgt =>
    match mkTranslationRequest text tgt source with
    | Except.error m => (Except.error (TranslateErr.validation m), false)
    | Except.ok req =>
      match behavior req with
      | Except.ok r => (Except.ok r, true)
      | Except.error e => (Except.error (TranslateErr.provider e), true)

/-! ## Theorems -/

set_option maxRecDepth 100000

lemma isOk_ok {ε α : Type} (a : α) : (Except.ok a : Except ε α).isOk = true :=
  rfl

lemma isOk_error {ε α : Type} (e : ε) :
    (Except.error e : Except ε α).isOk = false := rfl

lemma contains_true_of_mem {α : Type} [BEq α] [LawfulBEq α] {l : List α}
    {c : α} (hm : c ∈ l) : l.contains c = true :=
  List.elem_iff.mpr hm

lemma not_mem_of_contains_false {α : Type} [BEq α] [LawfulBEq α]
    {l : List α} {c : α} (h : l.contains c = false) : c ∉ l := by
  intro hm
  rw [contains_true_of_mem hm] at h
  exact Bool.noConfusion h

/-- Splitting at the first `'/'`: `takeWhile`/`dropWhile` recover the two
sides when the left side holds no `'/'`. -/
lemma slash_split (l2 l1 : List Char) (h : '/' ∉ l1) :
    (l1 ++ '/' :: l2).takeWhile (fun c => c ≠ '/') = l1 ∧
    (l1 ++ '/' :: l2).dropWhile (fun c => c ≠ '/') = '/' :: l2 := by
  induction l1 with
  | nil => simp [List.takeWhile_cons, List.dropWhile_cons]
  | cons c cs ih =>
    have hne : c ≠ '/' := fun hc => h (by simp [hc])
    have hcs : '/' ∉ cs := fun hm => h (List.mem_cons_of_mem _ hm)
    have hrec := ih hcs
    constructor
    · rw [List.cons_append, List.takeWhile_cons, if_pos (decide_eq_true hne),
        hrec.1]
    · rw [List.cons_append, List.dropWhile_cons, if_pos (decide_eq_true hne),
        hrec.2]

/-- C6: `parse_provider_name` splits on the first `'/'` only: with a
slash present, the provider is the part before the first slash and the
model is the whole remainder (which may itself contain slashes); with no
slash, the model is unset.  In particular
`parse("openai/gpt-4") = ("openai", "gpt-4")` and
`parse("openai") = ("openai", None)`. -/
theorem C6_parse_first_slash :
    parse_provider_name "openai/gpt-4" = ("openai", some "gpt-4") ∧
    parse_provider_name "openai" = ("openai", none) ∧
    (∀ s : String, '/' ∉ s.data →
      parse_provider_name s = (s, none)) ∧
    (∀ a b : String, '/' ∉ a.data →
      parse_provider_name (a ++ "/" ++ b) =
        (a, some b)) := by
  refine ⟨by decide, by decide, ?_, ?_⟩
  · intro s h
    have hc : s.data.contains '/' = false := by
      cases hcs : s.data.contains '/' with
      | false => rfl
      | true => exact absurd (List.elem_iff.mp hcs) h
    simp [parse_provider_name, hc, h]
  · intro a b h
    have hdata : (a ++ "/" ++ b).data = a.data ++ '/' :: b.data := by
      simp [String.data_append]
    have hc : (a.data ++ '/' :: b.data).contains '/' = true :=
      contains_true_of_mem (by simp)
    have hs := slash_split b.data a.data h
    simp only [parse_provider_name, hdata, hc, if_true, hs.1, hs.2,
      List.tail_cons]

/-- Witness for C6 at concrete inputs. -/
theorem C6_parse_first_slash_witness :
    parse_provider_name "anthropic/claude/x" = ("anthropic", some "claude/x") := by
  have h := (C6_parse_first_slash.2.2.2) "anthropic" "claude/x" (by decide)
  exact (by decide : ("anthropic" : String) ++ "/" ++ "claude/x" = "anthropic/claude/x") ▸ h

/-- C10: the DeepL adapter picks its endpoint from the API key alone —
keys ending in `:fx` dispatch to the free-tier base URL, every other key
to the pro base URL, and keys with the same suffix status always get the
same base URL. -/
theorem C10_deepl_endpoint :
    (∀ k : String, pyEndsWith k ":fx" = true →
      deeplBaseUrl k = "https://api-free.deepl.com") ∧
    (∀ k : String, pyEndsWith k ":fx" = false →
      deeplBaseUrl k = "https://api.deepl.com") ∧
    (∀ k1 k2 : String, pyEndsWith k1 ":fx" = pyEndsWith k2 ":fx" →
      deeplBaseUrl k1 = deeplBaseUrl k2) := by
  refine ⟨fun k h => by simp [deeplBaseUrl, h], fun k h => by
    simp [deeplBaseUrl, h], fun k1 k2 h => by
    simp only [deeplBaseUrl, h]⟩

/-- Witness for C10 at concrete keys. -/
theorem C10_deepl_endpoint_witness :
    deeplBaseUrl "key:fx" = "https://api-free.deepl.com" ∧
    deeplBaseUrl "key" = "https://api.deepl.com" :=
  ⟨C10_deepl_endpoint.1 "key:fx" (by decide),
   C10_deepl_endpoint.2.1 "key" (by decide)⟩

/-- C1 counterexample: `"gpt-5"` is not in the hard-coded OpenAI model
list, so while selector parsing succeeds, adapter construction raises
`ValueError` client-side — the unknown model is not passed through to the
live API. -/
theorem C1_counterexample :
    parse_provider_name "openai/gpt-5" = ("openai", some "gpt-5") ∧
    openaiProvider.name = "openai" ∧
    mkProviderInstance openaiProvider (some "gpt-5") =
      Except.error "Model not supported" ∧
    validate_provider_model openaiModels "gpt-5" =
      Except.error "Model not supported" := by
  refine ⟨by decide, rfl, by decide, by decide⟩

/-- C1 (amended): selector parsing is total, but `BaseProvider.__init__`
validates the resolved model client-side — for a non-empty (truthy) model
string, construction succeeds exactly when the provider declares no
supported-model list or the model is in that list; unknown models on a
provider with a declared list are rejected before any network access. -/
theorem C1_amended_model_validation (cls : ProviderClass) (v : String)
    (hv : v ≠ "") :
    (mkProviderInstance cls (some v)).isOk = true ↔
      (cls.supported_models = [] ∨ v ∈ cls.supported_models) := by
  simp only [mkProviderInstance, pyOr, if_neg hv]
  split_ifs with hcond
  · obtain ⟨h1, -, h3⟩ := hcond
    rw [isOk_error]
    constructor
    · intro h; exact Bool.noConfusion h
    · rintro (h | h)
      · exact absurd h h1
      · refine absurd (contains_true_of_mem h) ?_
        rw [h3]; intro hh; exact Bool.noConfusion hh
  · rw [isOk_ok]
    constructor
    · intro _
      by_cases hemp : cls.supported_models = []
      · exact Or.inl hemp
      · right
        by_cases hc : cls.supported_models.contains v = true
        · exact List.elem_iff.mp hc
        · exact absurd ⟨hemp, hv, by simpa using hc⟩ hcond
    · intro _; rfl

/-- Witness for C1's amended theorem at concrete inputs: a known model is
accepted, and the REST provider with no model list accepts anything. -/
theorem C1_amended_model_validation_witness :
    (mkProviderInstance openaiProvider (some "gpt-4")).isOk = true ∧
    (mkProviderInstance googleProvider (some "anything")).isOk = true :=
  ⟨(C1_amended_model_validation openaiProvider "gpt-4" (by decide)).mpr
      (Or.inr (by decide)),
   (C1_amended_model_validation googleProvider "anything" (by decide)).mpr
      (Or.inl rfl)⟩

/-- The failure reason recorded for a failed outcome. -/
def reasonOf (o : Outcome) : String :=
  match o with
  | Except.error e => e
  | Except.ok _ => ""

lemma toOption_none_iff (o : Outcome) :
    o.toOption = none ↔ o.isOk = false := by
  cases o <;> simp [Except.toOption, isOk_ok, isOk_error]

/-- When every provider failed, the recorded-failure list names every
provider with its reason, in input order. -/
lemma errors_eq_map (providers : List String) (behavior : String → Outcome)
    (h : ∀ p ∈ providers, (behavior p).isOk = false) :
    providers.filterMap (fun p =>
        match behavior p with
        | Except.error e => some (p ++ ": " ++ e)
        | Except.ok _ => none) =
      providers.map (fun p => p ++ ": " ++ reasonOf (behavior p)) := by
  induction providers with
  | nil => rfl
  | cons q qs ih =>
    have hq := h q (List.mem_cons_self q qs)
    cases hb : behavior q with
    | ok r => rw [hb, isOk_ok] at hq; exact Bool.noConfusion hq
    | error e =>
      rw [List.filterMap_cons, List.map_cons, hb,
        ih (fun p hp => h p (List.mem_cons_of_mem _ hp))]
      rfl

lemma all_fail_iff_results_nil (providers : List String)
    (behavior : String → Outcome) :
    (∀ p ∈ providers, (behavior p).isOk = false) ↔
      providers.filterMap (fun p => (behavior p).toOption) = [] := by
  rw [List.filterMap_eq_nil_iff]
  constructor
  · intro h p hp; exact (toOption_none_iff _).mpr (h p hp)
  · intro h p hp; exact (toOption_none_iff _).mp (h p hp)

lemma compare_all_fail (providers : List String)
    (behavior : String → Outcome)
    (h : ∀ p ∈ providers, (behavior p).isOk = false) :
    compare providers behavior =
      Except.error (providers.map (fun p =>
        p ++ ": " ++ reasonOf (behavior p))) := by
  have hnil := (all_fail_iff_results_nil providers behavior).mp h
  rw [compare.eq_def]
  simp only [hnil, List.isEmpty_nil, if_true]
  rw [errors_eq_map providers behavior h]

lemma compare_some_ok (providers : List String)
    (behavior : String → Outcome)
    (h : ∃ p ∈ providers, (behavior p).isOk = true) :
    compare providers behavior =
      Except.ok (providers.filterMap (fun p => (behavior p).toOption)) := by
  obtain ⟨p, hp, hok⟩ := h
  have hsome : (behavior p).toOption ≠ none := by
    rw [Ne, toOption_none_iff, hok]; simp
  have hmem : ∃ r, r ∈ providers.filterMap (fun p => (behavior p).toOption) := by
    cases hb : (behavior p).toOption with
    | none => exact absurd hb hsome
    | some r => exact ⟨r, List.mem_filterMap.mpr ⟨p, hp, hb⟩⟩
  obtain ⟨r, hr⟩ := hmem
  have hnonnil : providers.filterMap (fun p => (behavior p).toOption) ≠ [] := by
    intro hn; rw [hn] at hr; exact List.not_mem_nil r hr
  rw [compare.eq_def]
  rw [if_neg (by simpa [List.isEmpty_iff] using hnonnil)]

/-- C2: over a non-empty provider list, `compare` raises the aggregate
error — naming each provider with its failure reason, in input order —
exactly when every provider failed; with at least one success it returns
exactly the successful responses and no error. -/
theorem C2_compare_aggregate (providers : List String)
    (behavior : String → Outcome) (_hne : providers ≠ []) :
    ((∀ p ∈ providers, (behavior p).isOk = false) →
      compare providers behavior =
        Except.error (providers.map (fun p =>
          p ++ ": " ++ reasonOf (behavior p)))) ∧
    ((∃ p ∈ providers, (behavior p).isOk = true) →
      compare providers behavior =
        Except.ok (providers.filterMap (fun p => (behavior p).toOption))) ∧
    ((compare providers behavior).isOk = false ↔
      ∀ p ∈ providers, (behavior p).isOk = false) := by
  refine ⟨compare_all_fail providers behavior,
    compare_some_ok providers behavior, ?_, ?_⟩
  · intro h
    by_contra hnot
    push_neg at hnot
    obtain ⟨p, hp, hok⟩ := hnot
    have hok' : (behavior p).isOk = true := by
      cases hb : (behavior p) with
      | ok _ => exact isOk_ok _
      | error e => rw [hb, isOk_error] at hok; exact absurd rfl hok
    rw [compare_some_ok providers behavior ⟨p, hp, hok'⟩, isOk_ok] at h
    exact Bool.noConfusion h
  · intro h
    rw [compare_all_fail providers behavior h, isOk_error]

/-- A concrete fake-provider behavior for the witnesses: `"deepl"`
succeeds, everything else fails with an HTTP error. -/
def wBehavior : String → Outcome := fun p =>
  if p = "deepl" then
    Except.ok { text := "Bonjour", provider := "deepl" }
  else Except.error "HTTP 500"

/-- Witness for C2 at concrete inputs: partial success returns only the
successful response; total failure raises the aggregate error naming the
failed provider and its reason. -/
theorem C2_compare_aggregate_witness :
    compare ["google", "deepl"] wBehavior =
      Except.ok [{ text := "Bonjour", provider := "deepl" }] ∧
    compare ["google"] wBehavior =
      Except.error ["google: HTTP 500"] := by
  constructor
  · have h := (C2_compare_aggregate ["google", "deepl"] wBehavior
      (by decide)).2.1 ⟨"deepl", by decide, by decide⟩
    rw [h]; decide
  · have h := (C2_compare_aggregate ["google"] wBehavior (by decide)).1
      (by decide)
    rw [h]; decide

lemma foldl_set_length (outcomes : List Outcome) (order : List Nat)
    (buf : List (Option Outcome)) :
    (order.foldl (fun b k => b.set k outcomes[k]?) buf).length =
      buf.length := by
  induction order generalizing buf with
  | nil => rfl
  | cons k ks ih => rw [List.foldl_cons, ih, List.length_set]

/-- After the loop processes a completion order, every completed slot
holds its own task's outcome, regardless of where in the order it
completed. -/
lemma foldl_set_getElem? (outcomes : List Outcome) (order : List Nat)
    (buf : List (Option Outcome)) (hlen : buf.length = outcomes.length)
    (i : Nat) :
    (order.foldl (fun b k => b.set k outcomes[k]?) buf)[i]? =
      if i ∈ order ∧ i < outcomes.length then some outcomes[i]?
      else buf[i]? := by
  induction order generalizing buf with
  | nil => simp
  | cons k ks ih =>
    rw [List.foldl_cons, ih _ (by rw [List.length_set]; exact hlen)]
    by_cases hks : i ∈ ks ∧ i < outcomes.length
    · rw [if_pos hks, if_pos ⟨List.mem_cons_of_mem _ hks.1, hks.2⟩]
    · rw [if_neg hks]
      by_cases hk : i = k
      · subst hk
        by_cases hlt : i < outcomes.length
        · rw [List.getElem?_set_self (by rw [hlen]; exact hlt),
            if_pos ⟨List.mem_cons_self i ks, hlt⟩]
        · rw [if_neg (fun hc => hlt hc.2),
            List.set_eq_of_length_le (by rw [hlen]; omega)]
      · rw [List.getElem?_set_ne (fun h => hk h.symm)]
        rw [if_neg ?_]
        rintro ⟨hm, hlt⟩
        rcases List.mem_cons.mp hm with h | h
        · exact hk h
        · exact hks ⟨h, hlt⟩

/-- `asyncio.gather`: once every task's index appears in the completion
order, the buffer is the outcome list in task order. -/
lemma gatherBuf_covering (outcomes : List Outcome) (order : List Nat)
    (hcov : ∀ i, i < outcomes.length → i ∈ order) :
    gatherBuf outcomes order = outcomes.map some := by
  apply List.ext_getElem?
  intro n
  unfold gatherBuf
  rw [foldl_set_getElem? _ _ _ (by rw [List.length_replicate])]
  by_cases hn : n < outcomes.length
  · rw [if_pos ⟨hcov n hn, hn⟩, List.getElem?_map,
      List.getElem?_eq_getElem hn]
    rfl
  · rw [if_neg (fun hc => hn hc.2), List.getElem?_map,
      List.getElem?_replicate, if_neg hn,
      List.getElem?_eq_none (by omega)]
    rfl

lemma filterMap_map_some (outcomes : List Outcome) :
    (outcomes.map some).filterMap (fun slot =>
        match slot with
        | some (Except.ok r) => some r
        | _ => none) =
      outcomes.filterMap Except.toOption := by
  induction outcomes with
  | nil => rfl
  | cons o os ih =>
    cases o <;> simp [List.filterMap_cons, ih, Except.toOption]

/-- C3: the successful responses of `compare_async` come back in the
caller's input provider order, for every completion order of the
concurrent invocations — any two covering completion orders give the same
result list, which equals the input-order filtering of the outcomes — and
the sync `compare` returns that same input-order list. -/
theorem C3_result_order (providers : List String)
    (behavior : String → Outcome) (order1 order2 : List Nat)
    (h1 : ∀ i, i < providers.length → i ∈ order1)
    (h2 : ∀ i, i < providers.length → i ∈ order2) :
    compare_async providers behavior order1 =
      providers.filterMap (fun p => (behavior p).toOption) ∧
    compare_async providers behavior order1 =
      compare_async providers behavior order2 ∧
    (∀ res, compare providers behavior = Except.ok res →
      res = providers.filterMap (fun p => (behavior p).toOption)) := by
  have len_eq : (providers.map behavior).length = providers.length :=
    List.length_map _ _
  have key : ∀ order, (∀ i, i < providers.length → i ∈ order) →
      compare_async providers behavior order =
        providers.filterMap (fun p => (behavior p).toOption) := by
    intro order hcov
    unfold compare_async
    rw [gatherBuf_covering _ _ (by rw [len_eq]; exact hcov),
      filterMap_map_some, List.filterMap_map]
    rfl
  refine ⟨key order1 h1, (key order1 h1).trans (key order2 h2).symm, ?_⟩
  intro res hres
  rw [compare.eq_def] at hres
  dsimp only at hres
  by_cases hempty :
      (providers.filterMap (fun p => (behavior p).toOption)).isEmpty = true
  · rw [if_pos hempty] at hres
    exact Except.noConfusion hres
  · rw [if_neg hempty] at hres
    injection hres with h
    exact h.symm

/-- Witness for C3 at concrete inputs: three providers with the middle one
failing, under two different completion orders. -/
theorem C3_result_order_witness :
    compare_async ["deepl", "x", "deepl"] wBehavior [2, 0, 1] =
      [{ text := "Bonjour", provider := "deepl" },
       { text := "Bonjour", provider := "deepl" }] ∧
    compare_async ["deepl", "x", "deepl"] wBehavior [2, 0, 1] =
      compare_async ["deepl", "x", "deepl"] wBehavior [0, 1, 2] := by
  have h := C3_result_order ["deepl", "x", "deepl"] wBehavior [2, 0, 1]
    [0, 1, 2] (by decide) (by decide)
  refine ⟨?_, h.2.1⟩
  rw [h.1]; decide

/-- C7: `translate` releases its adapter's session exactly once on every
execution path — the response path and the raise path alike — before the
call returns or propagates, and the garbage-collection finalizer finds
nothing left to release afterwards. -/
theorem C7_release_exactly_once (outcome : Outcome) :
    (translateOrch outcome freshAdapter).1 = outcome ∧
    (translateOrch outcome freshAdapter).2.closes = 1 ∧
    (translateOrch outcome freshAdapter).2.sessionOpen = false ∧
    delFinalizer (translateOrch outcome freshAdapter).2 =
      (translateOrch outcome freshAdapter).2 :=
  ⟨rfl, rfl, rfl, rfl⟩

/-! ### Language-resolver lemmas -/

/-- The canonical language names (the keys of `NAME_TO_ISO`). -/
def canonicalNames : List String := NAME_TO_ISO.map (fun p => p.1)

lemma lookup_mem {α β : Type} [BEq α] [LawfulBEq α] {l : List (α × β)}
    {k : α} {v : β} (h : l.lookup k = some v) : (k, v) ∈ l := by
  induction l with
  | nil => exact Option.noConfusion h
  | cons p ps ih =>
    obtain ⟨a, b⟩ := p
    cases hbeq : (k == a) with
    | true =>
      rw [List.lookup, hbeq] at h
      injection h with h
      exact List.mem_cons.mpr (Or.inl (by rw [eq_of_beq hbeq, h]))
    | false =>
      rw [List.lookup, hbeq] at h
      exact List.mem_cons_of_mem _ (ih h)

lemma mem_insertDesc {x y : (Nat × Nat) × String}
    {l : List ((Nat × Nat) × String)} (h : y ∈ insertDesc x l) :
    y = x ∨ y ∈ l := by
  induction l with
  | nil => simpa [insertDesc] using h
  | cons z zs ih =>
    rw [insertDesc] at h
    by_cases hgt : scoreGt x z = true
    · rw [if_pos hgt] at h
      rcases List.mem_cons.mp h with h | h
      · exact Or.inl h
      · exact Or.inr h
    · rw [if_neg hgt] at h
      rcases List.mem_cons.mp h with h | h
      · exact Or.inr (h ▸ List.mem_cons_self z zs)
      · rcases ih h with h | h
        · exact Or.inl h
        · exact Or.inr (List.mem_cons_of_mem _ h)

lemma mem_sortDesc {l : List ((Nat × Nat) × String)}
    {y : (Nat × Nat) × String} (h : y ∈ sortDesc l) : y ∈ l := by
  induction l with
  | nil => simp [sortDesc] at h
  | cons z zs ih =>
    rw [sortDesc, List.foldr_cons] at h
    rcases mem_insertDesc h with h | h
    · exact h ▸ List.mem_cons_self z zs
    · exact List.mem_cons_of_mem _ (ih h)

/-- Fuzzy matches always come from the vocabulary. -/
lemma getCloseMatches_subset (word : String) (n cn cd : Nat) :
    ∀ m ∈ getCloseMatches word n cn cd, m ∈ allNames := by
  intro m hm
  simp only [getCloseMatches] at hm
  rw [List.mem_map] at hm
  obtain ⟨p, hp, hpm⟩ := hm
  have hp3 : p ∈ allNames.filterMap (fun x =>
      if ratioGe x.data word.data cn cd then
        some (ratioPair x.data word.data, x)
      else none) := mem_sortDesc (List.mem_of_mem_take hp)
  rw [List.mem_filterMap] at hp3
  obtain ⟨x, hx, hxp⟩ := hp3
  by_cases hr : ratioGe x.data word.data cn cd = true
  · rw [if_pos hr] at hxp
    injection hxp with h
    rw [← hpm, ← h]
    exact hx
  · rw [if_neg hr] at hxp
    exact Option.noConfusion hxp

/-- At most `n` fuzzy matches are ever returned. -/
lemma getCloseMatches_length (word : String) (n cn cd : Nat) :
    (getCloseMatches word n cn cd).length ≤ n := by
  simp only [getCloseMatches]
  rw [List.length_map]
  exact le_trans (Nat.le_of_eq (List.length_take _ _)) (min_le_left _ _)

lemma iso_values_canonical : ∀ p ∈ ISO_TO_NAME, p.2 ∈ canonicalNames := by
  decide

lemma alias_keys_canonical :
    ∀ e ∈ LANGUAGE_ALIASES, e.1 ∈ canonicalNames := by decide

lemma normalize_match_canonical :
    ∀ m ∈ allNames, normalize_match m ∈ canonicalNames := by decide

/-- Canonical names are fixed points of `normalize_language`. -/
lemma canonical_fixed :
    ∀ c ∈ canonicalNames, normalize_language c = Except.ok c := by decide

lemma canonical_has_iso :
    ∀ n ∈ canonicalNames, (NAME_TO_ISO.lookup n).isSome = true := by decide

/-- Every successful normalization lands in the canonical-name set. -/
lemma normalize_ok_mem {x y : String}
    (h : normalize_language x = Except.ok y) : y ∈ canonicalNames := by
  unfold normalize_language at h
  dsimp only at h
  cases h1 : ISO_TO_NAME.lookup (pyStrip (pyLower x)) with
  | some name =>
    rw [h1] at h
    injection h with h
    exact h ▸ iso_values_canonical _ (lookup_mem h1)
  | none =>
    rw [h1] at h
    cases h2 : NAME_TO_ISO.lookup (pyStrip (pyLower x)) with
    | some c =>
      rw [h2] at h
      injection h with h
      exact h ▸ List.mem_map_of_mem (fun p => p.1) (lookup_mem h2)
    | none =>
      rw [h2] at h
      cases h3 : aliasLookup (pyStrip (pyLower x)) with
      | some std =>
        rw [h3] at h
        injection h with h
        subst h
        rw [aliasLookup, Option.map_eq_some'] at h3
        obtain ⟨e, he, hstd⟩ := h3
        exact hstd ▸ alias_keys_canonical e (List.mem_of_find?_eq_some he)
      | none =>
        rw [h3] at h
        cases h4 : getCloseMatches (pyStrip (pyLower x)) 3 8 10 with
        | nil => rw [h4] at h; exact Except.noConfusion h
        | cons m rest =>
          rw [h4] at h
          injection h with h
          exact h ▸ normalize_match_canonical m
            (getCloseMatches_subset _ 3 8 10 m
              (h4 ▸ List.mem_cons_self m rest))

/-- C5: `normalize` is idempotent on every input it accepts, and
`"french"`, `"fr"`, `"français"`, and `"FRENCH"` all normalize to the same
canonical identifier. -/
theorem C5_normalize_idempotent :
    (∀ x y : String, normalize_language x = Except.ok y →
      normalize_language y = Except.ok y) ∧
    normalize_language "french" = Except.ok "french" ∧
    normalize_language "fr" = Except.ok "french" ∧
    normalize_language "français" = Except.ok "french" ∧
    normalize_language "FRENCH" = Except.ok "french" := by
  refine ⟨?_, by decide, by decide, by decide, by decide⟩
  intro x y h
  exact canonical_fixed y (normalize_ok_mem h)

/-- Witness for C5's idempotence part at a concrete accepted input. -/
theorem C5_normalize_idempotent_witness :
    normalize_language "french" = Except.ok "french" :=
  C5_normalize_idempotent.1 "fr" "french" (by decide)

/-- C4: `normalize` applies its rules in a fixed order with first match
winning — case-fold/trim, exact ISO-code lookup, exact canonical-name
lookup, alias lookup, fuzzy auto-correct at cutoff 0.8 landing on a
canonical name — and an input matching none of them fails with the
suggestion list computed at cutoff 0.6, which has at most 3 entries. -/
theorem C4_normalize_rule_order (input language : String)
    (hl : pyStrip (pyLower input) = language) :
    (∀ name, ISO_TO_NAME.lookup language = some name →
      normalize_language input = Except.ok name) ∧
    (ISO_TO_NAME.lookup language = none →
      ∀ c, NAME_TO_ISO.lookup language = some c →
      normalize_language input = Except.ok language) ∧
    (ISO_TO_NAME.lookup language = none →
      NAME_TO_ISO.lookup language = none →
      ∀ std, aliasLookup language = some std →
        normalize_language input = Except.ok std) ∧
    (ISO_TO_NAME.lookup language = none →
      NAME_TO_ISO.lookup language = none →
      aliasLookup language = none →
      ∀ m rest, getCloseMatches language 3 8 10 = m :: rest →
        normalize_language input = Except.ok (normalize_match m) ∧
        normalize_match m ∈ canonicalNames) ∧
    (ISO_TO_NAME.lookup language = none →
      NAME_TO_ISO.lookup language = none →
      aliasLookup language = none →
      getCloseMatches language 3 8 10 = [] →
      normalize_language input =
        Except.error (getCloseMatches language 3 6 10) ∧
      (getCloseMatches language 3 6 10).length ≤ 3) := by
  subst hl
  refine ⟨?_, ?_, ?_, ?_, ?_⟩
  · intro name h1
    unfold normalize_language
    dsimp only
    rw [h1]
  · intro h1 c h2
    unfold normalize_language
    dsimp only
    rw [h1, h2]
  · intro h1 h2 std h3
    unfold normalize_language
    dsimp only
    rw [h1, h2, h3]
  · intro h1 h2 h3 m rest h4
    constructor
    · unfold normalize_language
      dsimp only
      rw [h1, h2, h3, h4]
    · exact normalize_match_canonical m
        (getCloseMatches_subset _ 3 8 10 m (h4 ▸ List.mem_cons_self m rest))
  · intro h1 h2 h3 h4
    constructor
    · unfold normalize_language
      dsimp only
      rw [h1, h2, h3, h4]
    · exact getCloseMatches_length _ 3 6 10

/-- Witness for C4: the fuzzy branch auto-corrects the typo `"frnch"`, and
the unmatched `"klingon"` fails with the (≤ 3) cutoff-0.6 suggestions. -/
theorem C4_normalize_rule_order_witness :
    normalize_language "frnch" = Except.ok "french" ∧
    normalize_language "klingon" =
      Except.error (getCloseMatches "klingon" 3 6 10) := by
  have h1 := (C4_normalize_rule_order "frnch" "frnch" (by decide)).2.2.2.1
    (by decide) (by decide) (by decide) "french" [] (by decide)
  have h2 := (C4_normalize_rule_order "klingon" "klingon" (by decide)).2.2.2.2
    (by decide) (by decide) (by decide) (by decide)
  refine ⟨?_, h2.1⟩
  have hm : normalize_match "french" = "french" := by decide
  rw [hm] at h1
  exact h1.1

/-- C8: `get_provider_code` first normalizes the language, then returns
the per-provider override when the table has one for the normalized name,
and otherwise the plain ISO code — a total characterization, so the map is
deterministic by construction. -/
theorem C8_provider_code (language provider normalized : String)
    (h : normalize_language language = Except.ok normalized) :
    normalized ∈ canonicalNames ∧
    get_provider_code language provider =
      Except.ok
        (match (PROVIDER_MAPPINGS.lookup provider).bind
            (fun pm => pm.lookup normalized) with
         | some code => code
         | none => (NAME_TO_ISO.lookup normalized).getD "") := by
  have hmem := normalize_ok_mem h
  refine ⟨hmem, ?_⟩
  have hiso := canonical_has_iso normalized hmem
  unfold get_provider_code
  rw [h]
  cases hlk : NAME_TO_ISO.lookup normalized with
  | none => rw [hlk] at hiso; exact Bool.noConfusion hiso
  | some iso =>
    cases hpm : PROVIDER_MAPPINGS.lookup provider with
    | none => simp [hlk]
    | some pm =>
      cases hpl : pm.lookup normalized with
      | some code => simp [hpl]
      | none => simp [hpl, hlk]

/-- Witness for C8 at the source's worked examples: DeepL's regional
override for Portuguese, and Google's plain ISO code for Chinese. -/
theorem C8_provider_code_witness :
    get_provider_code "portuguese" "deepl" = Except.ok "pt-PT" ∧
    get_provider_code "chinese" "google" = Except.ok "zh" := by
  have h1 := (C8_provider_code "portuguese" "deepl" "portuguese"
    (by decide)).2
  have h2 := (C8_provider_code "chinese" "google" "chinese" (by decide)).2
  exact ⟨h1.trans (by decide), h2.trans (by decide)⟩

/-- A concrete adapter behavior for the C9 witness. -/
def wReqBehavior : TranslationRequest → Outcome := fun req =>
  Except.ok { text := req.text, provider := "google" }

/-- C9: building a `TranslationRequest` with empty text fails, and a
`translate` call with empty text or an unresolvable target language fails
with the network never reached. -/
theorem C9_prevalidation (text target : String) (source : Option String)
    (behavior : TranslationRequest → Outcome)
    (h : text = "" ∨ (normalize_language target).isOk = false) :
    (mkTranslationRequest "" target source).isOk = false ∧
    (translate_pipeline text target source behavior).1.isOk = false ∧
    (translate_pipeline text target source behavior).2 = false := by
  refine ⟨by simp [mkTranslationRequest, isOk_error], ?_⟩
  cases hn : normalize_language target with
  | error s =>
    unfold translate_pipeline
    rw [hn]
    exact ⟨isOk_error _, rfl⟩
  | ok t =>
    have htext : text = "" := by
      rcases h with h | h
      · exact h
      · rw [hn, isOk_ok] at h; exact Bool.noConfusion h
    subst htext
    unfold translate_pipeline
    rw [hn]
    simp [mkTranslationRequest, isOk_error]

/-- Witness for C9: empty text with a valid target, and non-empty text
with an unknown target, both fail without network access. -/
theorem C9_prevalidation_witness :
    ((translate_pipeline "" "french" none wReqBehavior).1.isOk = false ∧
     (translate_pipeline "" "french" none wReqBehavior).2 = false) ∧
    (translate_pipeline "Hello" "klingon" none wReqBehavior).2 = false := by
  have h1 := C9_prevalidation "" "french" none wReqBehavior (Or.inl rfl)
  have h2 := C9_prevalidation "Hello" "klingon" none wReqBehavior
    (Or.inr (by decide))
  exact ⟨⟨h1.2.1, h1.2.2⟩, h2.2.2⟩

end Deka
